import Mathlib

/-!
Verification of the claims about `src/peoplefinder.cpp` (the `PeopleFinder`
geometric pedestrian classifier).

The shallow embedding below translates the C++ source into Lean:

* `Point` models `cv::Point` (two `int` fields `x`, `y`; default value `(0,0)`).
* `Vec3b` models the three-channel colour value used by the pixel tests.
* `Mat` models the OpenCV image as its dimensions plus a total pixel function
  (`Mat::at<Vec3b>(row, col)`), which is how the source accesses it.
* The sentinel-terminated fixed-capacity `vector<Point>` of interior and
  outline pixels is modelled by the function `fun n => l.getD n ⟨0,0⟩`:
  entries past the data are the default-constructed `Point(0,0)`, exactly the
  sentinel the source relies on.  Reads beyond the capacity of 8192 are
  undefined behaviour in C++; the model idealises them to the same `(0,0)`.
* Every C++ loop whose termination is not structural is given an explicit
  fuel argument; `create_skeleton` instantiates each fuel with the vector
  capacity `CAP = 8192`, the number of iterations the source can make before
  running off the end of its fixed-size vectors.
* C++ `int` division truncates toward zero, hence `Int.tdiv` throughout.
* Comparisons of `sqrt` values of integer squared distances (in
  `find_foot_feature`) are translated to the equivalent comparisons of the
  squared distances themselves: `sqrt` is strictly monotone on nonnegative
  reals, so `sqrt a < sqrt b ↔ a < b` and `sqrt a < 10000 ↔ a < 10^8`; the
  initial `shortest_corner_dist = 10000` therefore becomes `100000000`.
* `find_elbow_feature` and `find_hand_feature` are built from double
  precision square roots, `atan2`, `cos` and `sin` (genuine floating point);
  no claim concerns their numeric output, so they enter the model as opaque
  parameters (`ArmDetectors`), and every theorem about `create_skeleton`
  is proved for all values of these parameters, hence in particular for the
  functions the source actually computes.  They receive the squared
  torso-to-halfway distance instead of its square root, which loses no
  generality (squaring is a bijection on nonnegative reals).
-/

/-- Model of `cv::Point`: integer pair, default-constructed to `(0,0)`. -/
structure Point where
  x : Int
  y : Int
deriving DecidableEq, Repr

/-- Model of `cv::Vec3b`, the 3-channel pixel value (B,G,R order as written
in the source, e.g. `Vec3b(0,0,255)`). -/
structure Vec3b where
  c0 : Int
  c1 : Int
  c2 : Int
deriving DecidableEq, Repr

/-- The outline colour `Vec3b(0,0,255)` (red contour pixels). -/
def C_OUTLINE : Vec3b := ⟨0, 0, 255⟩

/-- The flood-fill colour `Scalar(64,0,0)` that marks interior pixels. -/
def C_FILL : Vec3b := ⟨64, 0, 0⟩

/-- The untouched (exterior) colour of the contour image. -/
def C_BLACK : Vec3b := ⟨0, 0, 0⟩

/-- Model of the OpenCV `Mat` passed to `create_skeleton`: its dimensions and
the total pixel map read by `Mat::at<Vec3b>(row, col)`. -/
structure Mat where
  rows : Nat
  cols : Nat
  px : Nat → Nat → Vec3b

/-- `PeopleFinder::is_within_bound` (lines 861-864): closed at the lower
bounds, strict at the upper bounds. -/
def is_within_bound (node : Point) (lower_x lower_y x_bound y_bound : Int) : Bool :=
  decide (lower_x ≤ node.x) && decide (node.x < x_bound) &&
    decide (lower_y ≤ node.y) && decide (node.y < y_bound)

/-- The score loop of `PeopleFinder::judge_features` (lines 167-173): for each
of the 11 feature indices, add one when the node lies within the trained
min/max box of that index. -/
def judge_score (min_range max_range : Nat → Point) (nodes : List Point) : Nat :=
  (List.range 11).foldl
    (fun s i =>
      if is_within_bound (nodes.getD i ⟨0, 0⟩) (min_range i).x (min_range i).y
          (max_range i).x (max_range i).y then s + 1 else s) 0

/-- `PeopleFinder::judge_features` (lines 162-189): classify a skeleton from
its feature score. -/
def judge_features (min_range max_range : Nat → Point) (nodes : List Point) : String :=
  let feature_score := judge_score min_range max_range nodes
  if 7 ≤ feature_score then "Pedestrian"
  else if 3 ≤ feature_score then "Something"
  else "Noise"

/-- The specification-side score: the number of indices `i < 11` whose
landmark is contained in range `i`. -/
def spec_score (min_range max_range : Nat → Point) (nodes : List Point) : Nat :=
  (List.range 11).countP
    (fun i => is_within_bound (nodes.getD i ⟨0, 0⟩) (min_range i).x (min_range i).y
      (max_range i).x (max_range i).y)

/-- `PeopleFinder::train_compare_ranges` (lines 79-102): widen the per-index
min/max boxes toward the skeleton.  The C++ loop mutates indices `0..10` of
the two member vectors; entries at other indices are untouched. -/
def train_compare_ranges (feature_nodes : List Point) (min_range max_range : Nat → Point) :
    (Nat → Point) × (Nat → Point) :=
  ( fun i =>
      if i < 11 then
        let n := feature_nodes.getD i ⟨0, 0⟩
        ⟨if n.x ≤ (min_range i).x then n.x else (min_range i).x,
         if n.y ≤ (min_range i).y then n.y else (min_range i).y⟩
      else min_range i,
    fun i =>
      if i < 11 then
        let n := feature_nodes.getD i ⟨0, 0⟩
        ⟨if (max_range i).x ≤ n.x then n.x else (max_range i).x,
         if (max_range i).y ≤ n.y then n.y else (max_range i).y⟩
      else max_range i )

/-- `PeopleFinder::init` (lines 26-35): reset the range entries `0..10` to the
extreme sentinels `min = (1000,1000)`, `max = (0,0)`. -/
def pf_init (min_range max_range : Nat → Point) : (Nat → Point) × (Nat → Point) :=
  ( fun i => if i < 11 then ⟨1000, 1000⟩ else min_range i,
    fun i => if i < 11 then ⟨0, 0⟩ else max_range i )

-- Basic lemmas about the classifier.

theorem foldl_count_ones (p : Nat → Bool) (l : List Nat) :
    ∀ s : Nat, l.foldl (fun s i => if p i then s + 1 else s) s = s + l.countP p := by
  induction l with
  | nil => intro s; simp
  | cons a l ih =>
    intro s
    simp only [List.foldl_cons, List.countP_cons, ih]
    by_cases hp : p a = true
    · simp [hp]; omega
    · simp [hp]

theorem judge_score_eq_spec_score (min_range max_range : Nat → Point) (nodes : List Point) :
    judge_score min_range max_range nodes = spec_score min_range max_range nodes := by
  simpa [judge_score, spec_score] using
    foldl_count_ones
      (fun i => is_within_bound (nodes.getD i ⟨0, 0⟩) (min_range i).x (min_range i).y
        (max_range i).x (max_range i).y) (List.range 11) 0

/-- C5: For every skeleton and every range model, the score of
`judge_features` is the number of indices `i` in `0..10` whose landmark is
contained in range `i`, and the verdict is "Pedestrian" iff `score ≥ 7`,
"Something" iff `3 ≤ score < 7`, and "Noise" iff `score < 3`. -/
theorem C5_judge_features_score_and_verdict (min_range max_range : Nat → Point)
    (nodes : List Point) :
    judge_score min_range max_range nodes = spec_score min_range max_range nodes ∧
    (judge_features min_range max_range nodes = "Pedestrian" ↔
      7 ≤ spec_score min_range max_range nodes) ∧
    (judge_features min_range max_range nodes = "Something" ↔
      3 ≤ spec_score min_range max_range nodes ∧ spec_score min_range max_range nodes < 7) ∧
    (judge_features min_range max_range nodes = "Noise" ↔
      spec_score min_range max_range nodes < 3) := by
  have hs := judge_score_eq_spec_score min_range max_range nodes
  unfold judge_features
  rw [hs]
  by_cases h7 : 7 ≤ spec_score min_range max_range nodes
  · rw [if_pos h7]
    exact ⟨rfl, iff_of_true rfl h7,
      iff_of_false (by decide) (fun hc => by omega),
      iff_of_false (by decide) (by omega)⟩
  · rw [if_neg h7]
    by_cases h3 : 3 ≤ spec_score min_range max_range nodes
    · rw [if_pos h3]
      exact ⟨rfl, iff_of_false (by decide) h7,
        iff_of_true rfl ⟨h3, by omega⟩,
        iff_of_false (by decide) (by omega)⟩
    · rw [if_neg h3]
      exact ⟨rfl, iff_of_false (by decide) h7,
        iff_of_false (by decide) (fun hc => h3 hc.1),
        iff_of_true rfl (by omega)⟩

/-- C6: The containment test is closed at the lower bound and strict at the
upper bound, and consequently a range model with `min_range i = max_range i`
for all `i < 11` (as after training on a single skeleton) contains no
landmark of any skeleton, so `judge_features` returns "Noise" for every
skeleton. -/
theorem C6_half_open_containment_degenerate_noise :
    (∀ (node : Point) (lower_x lower_y x_bound y_bound : Int),
      is_within_bound node lower_x lower_y x_bound y_bound = true ↔
        (lower_x ≤ node.x ∧ node.x < x_bound ∧ lower_y ≤ node.y ∧ node.y < y_bound)) ∧
    (∀ min_range max_range : Nat → Point, (∀ i, i < 11 → min_range i = max_range i) →
      ∀ nodes : List Point, judge_features min_range max_range nodes = "Noise") := by
  constructor
  · intro node lower_x lower_y x_bound y_bound
    simp [is_within_bound, and_assoc]
  · intro min_range max_range hmm nodes
    have hscore : spec_score min_range max_range nodes = 0 := by
      apply List.countP_eq_zero.mpr
      intro i hi
      have hi11 : i < 11 := by simpa using hi
      have h := hmm i hi11
      simp only [is_within_bound, h]
      by_contra hb
      simp only [Bool.not_eq_false, Bool.and_eq_true, decide_eq_true_eq] at hb
      omega
    unfold judge_features
    rw [judge_score_eq_spec_score, hscore]
    decide

/-- Witness for C6: a concrete degenerate range model (`min = max`
everywhere) classifies a concrete skeleton as "Noise". -/
theorem C6_half_open_containment_degenerate_noise_witness :
    judge_features (fun _ => ⟨7, 9⟩) (fun _ => ⟨7, 9⟩) (List.replicate 11 ⟨7, 9⟩) = "Noise" :=
  C6_half_open_containment_degenerate_noise.2 (fun _ => ⟨7, 9⟩) (fun _ => ⟨7, 9⟩)
    (fun _ _ => rfl) (List.replicate 11 ⟨7, 9⟩)

/-- C8: training-range update is idempotent on strictly interior skeletons:
if every landmark of `feature_nodes` lies strictly inside the corresponding
current `(min, max)` box in both coordinates, `train_compare_ranges` leaves
`min_range` and `max_range` unchanged at every index. -/
theorem C8_train_compare_ranges_idempotent_interior (feature_nodes : List Point)
    (min_range max_range : Nat → Point)
    (hin : ∀ i, i < 11 →
      (min_range i).x < (feature_nodes.getD i ⟨0, 0⟩).x ∧
      (feature_nodes.getD i ⟨0, 0⟩).x < (max_range i).x ∧
      (min_range i).y < (feature_nodes.getD i ⟨0, 0⟩).y ∧
      (feature_nodes.getD i ⟨0, 0⟩).y < (max_range i).y) :
    (∀ i, (train_compare_ranges feature_nodes min_range max_range).1 i = min_range i) ∧
    (∀ i, (train_compare_ranges feature_nodes min_range max_range).2 i = max_range i) := by
  constructor <;> intro i <;> by_cases hi : i < 11 <;>
    simp only [train_compare_ranges, if_pos, if_neg, hi, if_true, if_false]
  · obtain ⟨h1, h2, h3, h4⟩ := hin i hi
    rw [if_neg (by omega), if_neg (by omega)]
  · obtain ⟨h1, h2, h3, h4⟩ := hin i hi
    rw [if_neg (by omega), if_neg (by omega)]

/-- Witness for C8: a concrete strictly-interior skeleton leaves a concrete
range model unchanged. -/
theorem C8_train_compare_ranges_idempotent_interior_witness :
    (∀ i, (train_compare_ranges (List.replicate 11 ⟨5, 6⟩)
        (fun _ => ⟨0, 0⟩) (fun _ => ⟨50, 60⟩)).1 i = (fun _ => (⟨0, 0⟩ : Point)) i) ∧
    (∀ i, (train_compare_ranges (List.replicate 11 ⟨5, 6⟩)
        (fun _ => ⟨0, 0⟩) (fun _ => ⟨50, 60⟩)).2 i = (fun _ => (⟨50, 60⟩ : Point)) i) :=
  C8_train_compare_ranges_idempotent_interior (List.replicate 11 ⟨5, 6⟩)
    (fun _ => ⟨0, 0⟩) (fun _ => ⟨50, 60⟩) (by decide)

/-! ## Landmark detectors

Each detector receives the interior pixel sequence as a total function
`pix : Nat → Point` (`pix n = shape_pixels.getD n ⟨0,0⟩` at the call sites,
see the header comment).  Seed indices and the C++ output parameters
(`*index_head`, `*index_torso`, ...) appear as explicit inputs (the value the
output variable holds at the call) and outputs (its final value). -/

/-- The capacity of the interior pixel vector `vector<Point>(8192)`; used as
the fuel of the detector loops in `create_skeleton`. -/
def CAP : Nat := 8192

/-- The search loop of `find_head_feature` (lines 309-318): walk from the
start, remember the strictly smallest row seen, stop when the current row
exceeds it by `threshold`. -/
def head_loop (pix : Nat → Point) (threshold : Int) :
    Nat → Nat → Point → Nat → Point × Nat
  | 0, _, headnode, index_head => (headnode, index_head)
  | fuel + 1, i, headnode, index_head =>
    if pix i ≠ ⟨0, 0⟩ ∧ (pix i).x < headnode.x + threshold then
      if (pix i).x < headnode.x then
        head_loop pix threshold fuel (i + 1) (pix i) i
      else
        head_loop pix threshold fuel (i + 1) headnode index_head
    else (headnode, index_head)

/-- `PeopleFinder::find_head_feature` (lines 304-321).  Returns the head node
(the minimum-row pixel with its row incremented by `threshold`) and the final
value of the `*index_head` output parameter (`idx0` is the value it holds at
the call site, `0` in `create_skeleton`). -/
def find_head_feature (pix : Nat → Point) (threshold : Int) (idx0 : Nat) (fuel : Nat) :
    Point × Nat :=
  let r := head_loop pix threshold fuel 0 ⟨1000, 1000⟩ idx0
  (⟨r.1.x + threshold, r.1.y⟩, r.2)

/-- The skip loop shared by `find_torso_feature` (lines 351-354) and
`find_foot_feature` (lines 486-489): advance while the pixel row is below
`bound` and the sentinel has not been reached. -/
def seek_row (pix : Nat → Point) (bound : Int) : Nat → Nat → Nat
  | 0, i => i
  | fuel + 1, i =>
    if (pix i).x < bound ∧ pix i ≠ ⟨0, 0⟩ then seek_row pix bound fuel (i + 1) else i

/-- State of the torso scan loop: the row marker, the running per-row count,
the smallest count seen, the best node and the `*index_torso` value. -/
structure TorsoState where
  current_row : Point
  current_dist : Int
  shortest_dist : Int
  best_fit_node : Point
  index_torso : Nat
deriving Repr

/-- The scan loop of `find_torso_feature` (lines 359-377): count pixels that
share the current row; at each row change, keep the strictly smallest count
with the pixel `shape_pixels[i-1]` that closed it. -/
def torso_loop (pix : Nat → Point) (lower_bound_x : Int) :
    Nat → Nat → TorsoState → TorsoState
  | 0, _, s => s
  | fuel + 1, i, s =>
    if pix i ≠ ⟨0, 0⟩ ∧ (pix i).x < lower_bound_x then
      let i1 := i + 1
      if (pix i1).x = s.current_row.x then
        torso_loop pix lower_bound_x fuel i1 { s with current_dist := s.current_dist + 1 }
      else if s.current_dist < s.shortest_dist then
        torso_loop pix lower_bound_x fuel i1
          { current_row := pix i1, current_dist := 0, shortest_dist := s.current_dist,
            best_fit_node := pix (i1 - 1), index_torso := i1 - 1 }
      else
        torso_loop pix lower_bound_x fuel i1
          { s with current_row := pix i1, current_dist := 0 }
    else s

/-- `PeopleFinder::find_torso_feature` (lines 335-383).  `index_head` is the
seed index, `idx0` the value of the `*index_torso` output parameter at the
call site (`0` in `create_skeleton`). -/
def find_torso_feature (pix : Nat → Point) (threshold : Int) (head_feature : Point)
    (index_head : Nat) (idx0 : Nat) (fuel1 fuel2 : Nat) : Point × Nat :=
  let lower_bound_x : Int := if 48 < head_feature.x then head_feature.x + 1 else 48
  let i := seek_row pix (head_feature.x + threshold) fuel1 index_head
  let s := torso_loop pix lower_bound_x fuel2 i
    { current_row := pix i, current_dist := 0, shortest_dist := 1000,
      best_fit_node := pix i, index_torso := idx0 }
  (⟨s.best_fit_node.x + threshold, s.best_fit_node.y - Int.tdiv s.shortest_dist 2⟩,
    s.index_torso)

/-- State of the widest-run scan shared by `find_waist_feature` and
`set_shoulder_positions`. -/
structure WideState where
  current_row : Point
  current_dist : Int
  largest_dist : Int
  best_fit_node : Point
  index_out : Nat
deriving Repr

/-- The widest-run scan loop of `find_waist_feature` (lines 427-446) and
`set_shoulder_positions` (lines 540-559), which are textually identical in
the source up to the lower bound: advance the expected pixel
(`current_row.y += 1`) each iteration, count while the observed pixel equals
the expected one, and at each discontinuity keep the strictly largest count
with the pixel `shape_pixels[i-1]` that closed it. -/
def widest_run_loop (pix : Nat → Point) (lower_bound_x : Int) :
    Nat → Nat → WideState → WideState
  | 0, _, s => s
  | fuel + 1, i, s =>
    if pix i ≠ ⟨0, 0⟩ ∧ (pix i).x < lower_bound_x then
      let i1 := i + 1
      let expected : Point := ⟨s.current_row.x, s.current_row.y + 1⟩
      if pix i1 = expected then
        widest_run_loop pix lower_bound_x fuel i1
          { s with current_row := expected, current_dist := s.current_dist + 1 }
      else if s.largest_dist < s.current_dist then
        widest_run_loop pix lower_bound_x fuel i1
          { current_row := pix i1, current_dist := 0, largest_dist := s.current_dist,
            best_fit_node := pix (i1 - 1), index_out := i1 - 1 }
      else
        widest_run_loop pix lower_bound_x fuel i1
          { s with current_row := pix i1, current_dist := 0 }
    else s

/-- The accelerated skip loop of `find_waist_feature` (lines 415-422): while
below `bound` and before the sentinel, jump by 101 when at least 8 rows away,
else by 1. -/
def waist_seek (pix : Nat → Point) (bound : Int) : Nat → Nat → Nat
  | 0, i => i
  | fuel + 1, i =>
    if (pix i).x < bound ∧ pix i ≠ ⟨0, 0⟩ then
      if 8 ≤ bound - (pix i).x then waist_seek pix bound fuel (i + 101)
      else waist_seek pix bound fuel (i + 1)
    else i

/-- `PeopleFinder::find_waist_feature` (lines 397-457).  `index_torso` is the
seed index, `idx0` the call-site value of `*index_waist` (`0` in
`create_skeleton`), `bad_skel_flag` the failure flag.  The C++ body is
wrapped in `try/catch (Exception e) { bad_skel_flag = true; }`, but no
operation in the body can throw a `cv::Exception` (`vector::operator[]` does
not throw), so the flag passes through unchanged. -/
def find_waist_feature (pix : Nat → Point) (threshold : Int) (torso_feature : Point)
    (index_torso : Nat) (idx0 : Nat) (bad_skel_flag : Bool) (fuel1 fuel2 : Nat) :
    Point × Nat × Bool :=
  let upper_bound_x : Int := if 64 < torso_feature.x then torso_feature.x + 1 else 64
  let lower_bound_x : Int := 80
  let i := waist_seek pix (upper_bound_x + threshold) fuel1 index_torso
  let s := widest_run_loop pix lower_bound_x fuel2 i
    { current_row := pix i, current_dist := 0, largest_dist := 0,
      best_fit_node := pix i, index_out := idx0 }
  (⟨s.best_fit_node.x - threshold, s.best_fit_node.y - Int.tdiv s.largest_dist 2⟩,
    s.index_out, bad_skel_flag)

/-- The distance-minimising loop of `find_foot_feature` (lines 491-502);
`sqrt` comparisons are rendered as comparisons of squared distances (see the
header comment), so the initial `shortest_corner_dist = 10000` becomes
`10000^2 = 100000000`. -/
def foot_loop (pix : Nat → Point) (corner : Point) :
    Nat → Nat → Point → Int → Point
  | 0, _, best_fit_node, _ => best_fit_node
  | fuel + 1, i, best_fit_node, shortest_sq =>
    if pix i ≠ ⟨0, 0⟩ then
      let i1 := i + 1
      let distx := (corner.x - (pix i1).x) * (corner.x - (pix i1).x)
      let disty := (corner.y - (pix i1).y) * (corner.y - (pix i1).y)
      if distx + disty < shortest_sq then
        foot_loop pix corner fuel i1 (pix i1) (distx + disty)
      else
        foot_loop pix corner fuel i1 best_fit_node shortest_sq
    else best_fit_node

/-- `PeopleFinder::find_foot_feature` (lines 471-507).  `index_waist` is the
seed index; the function has no output index and never touches the failure
flag. -/
def find_foot_feature (pix : Nat → Point) (threshold : Int) (waist_feature : Point)
    (corner : Point) (index_waist : Nat) (fuel1 fuel2 : Nat) : Point :=
  let upper_bound_x : Int := if 70 < waist_feature.x then waist_feature.x + 1 else 70
  let i := seek_row pix (upper_bound_x + threshold) fuel1 index_waist
  foot_loop pix corner fuel2 i ⟨1000, 1000⟩ 100000000

/-- The skip loop of `set_shoulder_positions` (lines 532-535); note the
source checks no sentinel here, so on a list whose rows never reach
`bound` the C++ loop runs off the vector; the model stops when the fuel
(the vector capacity in `create_skeleton`) is exhausted. -/
def shoulder_seek (pix : Nat → Point) (bound : Int) : Nat → Nat → Nat
  | 0, i => i
  | fuel + 1, i => if (pix i).x < bound then shoulder_seek pix bound fuel (i + 1) else i

/-- `PeopleFinder::set_shoulder_positions` (lines 522-570).  Returns
`(left_shoulder, right_shoulder, arm_width, index_shoulders)`; `index_torso`
is the seed index and `idx0` the call-site value of `*index_shoulders`. -/
def set_shoulder_positions (pix : Nat → Point) (threshold : Int) (torso_feature : Point)
    (index_torso : Nat) (idx0 : Nat) (fuel1 fuel2 : Nat) : Point × Point × Int × Nat :=
  let upper_bound_x : Int := torso_feature.x
  let lower_bound_x : Int := torso_feature.x + threshold
  let i := shoulder_seek pix upper_bound_x fuel1 index_torso
  let s := widest_run_loop pix lower_bound_x fuel2 i
    { current_row := pix i, current_dist := 0, largest_dist := 0,
      best_fit_node := pix i, index_out := idx0 }
  let aw0 := Int.tdiv s.largest_dist 10
  let arm_width := if aw0 = 0 then 1 else aw0
  (⟨s.best_fit_node.x, s.best_fit_node.y - s.largest_dist + arm_width⟩,
    ⟨s.best_fit_node.x, s.best_fit_node.y - arm_width⟩,
    arm_width, s.index_out)

/-- `PeopleFinder::calc_halfway_torso_dist` (lines 581-594).  Returns the
halfway node and the squared torso-to-halfway distance (the source stores
`sqrt` of it; see the header comment). -/
def calc_halfway_torso_dist (torso_feature waist_feature : Point) : Point × Int :=
  let halfway_dist_x := Int.tdiv (waist_feature.x - torso_feature.x) 2
  let halfway_dist_y := Int.tdiv (waist_feature.y - torso_feature.y) 2
  let halfway_node : Point := ⟨torso_feature.x + halfway_dist_x, torso_feature.y + halfway_dist_y⟩
  let distx := (halfway_node.x - torso_feature.x) * (halfway_node.x - torso_feature.x)
  let disty := (halfway_node.y - torso_feature.y) * (halfway_node.y - torso_feature.y)
  (halfway_node, distx + disty)

/-- `find_elbow_feature` (lines 611-670) and `find_hand_feature` (lines
689-767) compute with double-precision square roots, `atan2`, `cos` and
`sin`; their numeric output is floating point and is not the subject of any
claim, so they are modelled as opaque parameters with the argument lists of
the source (the halfway distance passed as its square, the hand detector
also receiving the outline pixels and the contour image).  The returned
`Bool` is the contribution of their `catch` blocks to `bad_skel_flag`
(`true` means the handler ran); theorems over `create_skeleton` quantify
over both functions. -/
structure ArmDetectors where
  elbow : List Point → Point → Point → Point → Int → Int → Point → Nat → Point × Bool
  hand : List Point → List Point → Point → Point → Int → Int → Point → Mat → Nat → Point × Bool

/-! ## Silhouette validity check and flood fill (lines 221-226)

`create_skeleton` first tests `at<Vec3b>(64, 32)` — row 64, column 32 — and,
when that pixel does not carry the outline colour, calls
`floodFill(*contoursonly, Point(32, 64), Scalar(64,0,0))`.  An OpenCV
`Point(x, y)` addresses column `x`, row `y`, so the flood seed is the same
pixel `(row 64, col 32)` that was tested.  `floodFill` recolours the
4-connected component of pixels holding the seed value; the model computes
the set of reached cells by a fuelled breadth-first search (fuel
`rows*cols + 1`, enough to drain any frontier since every cell enters the
frontier at most once). -/

/-- One frontier step of the flood: cells reached so far (`vis`, which also
plays the role of the recolouring set) and the remaining frontier. -/
def flood_loop (rows cols : Nat) (base : Nat → Nat → Vec3b) (seed_val : Vec3b) :
    Nat → List (Int × Int) → List (Int × Int) → List (Int × Int)
  | 0, vis, _ => vis
  | _ + 1, vis, [] => vis
  | fuel + 1, vis, p :: frontier =>
    let ns := [((p.1 + 1 : Int), p.2), (p.1 - 1, p.2), (p.1, p.2 + 1), (p.1, p.2 - 1)].filter
      (fun q => decide (0 ≤ q.1) && decide (q.1 < (rows : Int)) && decide (0 ≤ q.2) &&
        decide (q.2 < (cols : Int)) &&
        decide (base q.1.toNat q.2.toNat = seed_val) && decide (q ∉ vis))
    flood_loop rows cols base seed_val fuel (vis ++ ns) (frontier ++ ns)

/-- The set of cells recoloured by `floodFill(*contoursonly, Point(32,64),
Scalar(64,0,0))`: the 4-connected component of the seed cell (row 64,
col 32) among cells holding the seed value. -/
def flood_reach (m : Mat) : List (Int × Int) :=
  if 64 < m.rows ∧ 32 < m.cols then
    flood_loop m.rows m.cols m.px (m.px 64 32) (m.rows * m.cols + 1) [(64, 32)] [(64, 32)]
  else []

/-- Whether `create_skeleton` runs the flood fill (line 221): exactly when
the seed pixel (row 64, col 32) does not hold the outline colour. -/
def runs_flood (m : Mat) : Bool := decide (m.px 64 32 ≠ C_OUTLINE)

/-- The image after the conditional flood fill of lines 221-224. -/
def after_flood (m : Mat) : Mat :=
  if runs_flood m then
    { m with px := fun r c => if ((r : Int), (c : Int)) ∈ flood_reach m then C_FILL else m.px r c }
  else m

/-- The validity test of line 226, evaluated on the (possibly flooded)
image: proceed iff the corner (0,0) does not hold the fill colour and the
seed pixel does not hold the outline colour. -/
def silhouette_ok (m : Mat) : Bool :=
  decide ((after_flood m).px 0 0 ≠ C_FILL) && decide ((after_flood m).px 64 32 ≠ C_OUTLINE)

/-- `PeopleFinder::highlight_pixels` (lines 269-293): collect, in row-major
order, the interior (fill-coloured) and outline pixels of the image. -/
def highlight_pixels (m : Mat) : List Point × List Point :=
  let cells := (List.range m.rows).flatMap (fun i => (List.range m.cols).map (fun j => (i, j)))
  ( (cells.filter (fun ij => m.px ij.1 ij.2 = C_FILL)).map
      (fun ij => (⟨(ij.1 : Int), (ij.2 : Int)⟩ : Point)),
    (cells.filter (fun ij => m.px ij.1 ij.2 = C_OUTLINE)).map
      (fun ij => (⟨(ij.1 : Int), (ij.2 : Int)⟩ : Point)) )

/-- `PeopleFinder::create_skeleton` (lines 210-260).  `bad_skel_flag` is the
value of the member flag when the function is entered; the result pairs the
11 feature nodes (`vector<Point> nodes(11)` default-initialises them to
`(0,0)`) with the final value of the flag.  The two `else` branches of
lines 248-256 set the flag and leave `nodes` untouched. -/
def create_skeleton (ad : ArmDetectors) (contoursonly : Mat) (bad_skel_flag : Bool) :
    List Point × Bool :=
  if silhouette_ok contoursonly then
    let m1 := after_flood contoursonly
    let hp := highlight_pixels m1
    let shape_pixels := hp.1
    let outline_pixels := hp.2
    let pix := fun n => shape_pixels.getD n ⟨0, 0⟩
    let h := find_head_feature pix 5 0 CAP
    let t := find_torso_feature pix 5 h.1 h.2 0 CAP CAP
    if is_within_bound t.1 0 0 (contoursonly.rows : Int) (contoursonly.cols : Int) then
      let w := find_waist_feature pix 5 t.1 t.2 0 bad_skel_flag CAP CAP
      let hw := calc_halfway_torso_dist t.1 w.1
      let lf := find_foot_feature pix 5 w.1 ⟨127, 1⟩ w.2.1 CAP CAP
      let rf := find_foot_feature pix 5 w.1 ⟨127, 63⟩ w.2.1 CAP CAP
      let sh := set_shoulder_positions pix 5 t.1 t.2 0 CAP CAP
      let le := ad.elbow shape_pixels t.1 w.1 sh.1 sh.2.2.1 hw.2 hw.1 sh.2.2.2
      let lh := ad.hand shape_pixels outline_pixels w.1 le.1 sh.2.2.1 hw.2 hw.1 m1 sh.2.2.2
      let re := ad.elbow shape_pixels t.1 w.1 sh.2.1 sh.2.2.1 hw.2 hw.1 sh.2.2.2
      let rh := ad.hand shape_pixels outline_pixels w.1 re.1 sh.2.2.1 hw.2 hw.1 m1 sh.2.2.2
      ([h.1, t.1, w.1, lf, rf, sh.1, sh.2.1, le.1, lh.1, re.1, rh.1],
        ((((w.2.2 || le.2) || lh.2) || re.2) || rh.2))
    else ([h.1, t.1] ++ List.replicate 9 ⟨0, 0⟩, true)
  else (List.replicate 11 ⟨0, 0⟩, true)

/-- The training loop of `PeopleFinder::train` (lines 59-70), over the list
of loaded images (the directory walking and image loading of lines 56-57 are
I/O external to the core).  State: the two range vectors and the member
`bad_skel_flag`; each iteration fits a skeleton, folds it into the ranges
only when the flag is down, then clears the flag. -/
def train_loop (ad : ArmDetectors) :
    (Nat → Point) → (Nat → Point) → Bool → List Mat → (Nat → Point) × (Nat → Point) × Bool
  | min_range, max_range, bad_skel_flag, [] => (min_range, max_range, bad_skel_flag)
  | min_range, max_range, bad_skel_flag, img :: rest =>
    let fn := create_skeleton ad img bad_skel_flag
    if fn.2 = false then
      let r := train_compare_ranges fn.1 min_range max_range
      train_loop ad r.1 r.2 false rest
    else
      train_loop ad min_range max_range false rest

/-- `PeopleFinder::train` (lines 44-72): reset the ranges with `init`, then
run the training loop with the flag value the object holds when `train` is
called (the constructor argument `bad`, line 19-21). -/
def train (ad : ArmDetectors) (min_range max_range : Nat → Point) (bad_skel_flag : Bool)
    (images : List Mat) : (Nat → Point) × (Nat → Point) × Bool :=
  let r := pf_init min_range max_range
  train_loop ad r.1 r.2 bad_skel_flag images

/-! ## Shared facts about `create_skeleton` and the flood fill -/

/-- The flood search only ever adds cells: everything in `vis` is in the
result. -/
theorem flood_loop_sub (rows cols : Nat) (base : Nat → Nat → Vec3b) (seed_val : Vec3b) :
    ∀ (fuel : Nat) (vis frontier : List (Int × Int)),
      vis ⊆ flood_loop rows cols base seed_val fuel vis frontier := by
  intro fuel
  induction fuel with
  | zero => intro vis frontier; simp [flood_loop]
  | succ fuel ih =>
    intro vis frontier
    cases frontier with
    | nil => simp [flood_loop]
    | cons p fr =>
      refine List.Subset.trans ?_ (ih _ _)
      exact List.subset_append_left _ _

/-- The seed cell (row 64, col 32) is always recoloured when it is inside
the image. -/
theorem seed_mem_flood_reach (m : Mat) (hr : 64 < m.rows) (hc : 32 < m.cols) :
    ((64 : Int), (32 : Int)) ∈ flood_reach m := by
  unfold flood_reach
  rw [if_pos ⟨hr, hc⟩]
  exact flood_loop_sub _ _ _ _ _ _ _ (by simp)

/-- On the failing validity branch (line 253-256), `create_skeleton` leaves
the default-constructed nodes untouched and raises the flag. -/
theorem create_skeleton_of_not_ok (ad : ArmDetectors) (m : Mat) (flag0 : Bool)
    (h : silhouette_ok m = false) :
    create_skeleton ad m flag0 = (List.replicate 11 ⟨0, 0⟩, true) := by
  unfold create_skeleton
  rw [if_neg (by simp [h])]

/-- The waist detector returns the failure flag it was given (its `catch`
handler has nothing to catch in the model). -/
theorem find_waist_feature_flag (pix : Nat → Point) (threshold : Int) (torso_feature : Point)
    (index_torso idx0 : Nat) (bad_skel_flag : Bool) (fuel1 fuel2 : Nat) :
    (find_waist_feature pix threshold torso_feature index_torso idx0 bad_skel_flag
      fuel1 fuel2).2.2 = bad_skel_flag := rfl

/-- `create_skeleton` never lowers the failure flag: entered with the flag
up, it returns with the flag up. -/
theorem create_skeleton_flag_true (ad : ArmDetectors) (m : Mat) :
    (create_skeleton ad m true).2 = true := by
  unfold create_skeleton
  by_cases hok : silhouette_ok m
  · rw [if_pos hok]
    dsimp only
    split
    · simp [find_waist_feature_flag]
    · rfl
  · rw [if_neg hok]

/-- Concrete elbow/hand parameters used by the concrete evaluations below
(any values work: every theorem quantifies over them). -/
def adTriv : ArmDetectors :=
  ⟨fun _ _ _ _ _ _ _ _ => (⟨0, 0⟩, false), fun _ _ _ _ _ _ _ _ _ => (⟨0, 0⟩, false)⟩

/-- A 128×64 contour image whose seed pixel (64,32) is an outline pixel, so
the validity check of line 226 fails without any flood. -/
def imgSeedOutline : Mat :=
  { rows := 128, cols := 64,
    px := fun r c => if r = 64 ∧ c = 32 then C_OUTLINE else C_BLACK }

/-- An entirely exterior (all black) 128×64 image. -/
def imgAllBlack : Mat := { rows := 128, cols := 64, px := fun _ _ => C_BLACK }

/-- C1, counterexample: on an invalid silhouette the returned skeleton is
the default `vector<Point>(11)`, i.e. eleven `(0,0)` landmarks — not the
`(1000,1000)` sentinel the claim states. -/
theorem C1_counterexample :
    silhouette_ok imgSeedOutline = false ∧
    (create_skeleton adTriv imgSeedOutline false).1 = List.replicate 11 ⟨0, 0⟩ ∧
    (create_skeleton adTriv imgSeedOutline false).1.getD 0 ⟨0, 0⟩ ≠ ⟨1000, 1000⟩ := by
  refine ⟨by decide, ?_, ?_⟩
  · rw [create_skeleton_of_not_ok adTriv _ _ (by decide)]
  · rw [create_skeleton_of_not_ok adTriv _ _ (by decide)]
    decide

/-- C1, amended: when the silhouette validity check fails, `create_skeleton`
never builds any landmark, sets the failure flag, and returns the default
skeleton whose 11 landmarks are all the default point `(0,0)`;
`judge_features` applied to that default skeleton under freshly initialised
ranges (`min = (1000,1000)`, `max = (0,0)`) scores 0 and returns "Noise". -/
theorem C1_amended (ad : ArmDetectors) (m : Mat) (flag0 : Bool)
    (h : silhouette_ok m = false) :
    create_skeleton ad m flag0 = (List.replicate 11 ⟨0, 0⟩, true) ∧
    (∀ min0 max0 : Nat → Point,
      judge_score (pf_init min0 max0).1 (pf_init min0 max0).2 (List.replicate 11 ⟨0, 0⟩) = 0 ∧
      judge_features (pf_init min0 max0).1 (pf_init min0 max0).2 (List.replicate 11 ⟨0, 0⟩)
        = "Noise") := by
  refine ⟨create_skeleton_of_not_ok ad m flag0 h, ?_⟩
  intro min0 max0
  have hscore : spec_score (pf_init min0 max0).1 (pf_init min0 max0).2
      (List.replicate 11 ⟨0, 0⟩) = 0 := by
    apply List.countP_eq_zero.mpr
    intro i hi
    have hi11 : i < 11 := by simpa using hi
    have hgen : ∀ p : Point, is_within_bound p 1000 1000 0 0 = false := by
      intro p
      rw [Bool.eq_false_iff]
      intro hb
      simp only [is_within_bound, Bool.and_eq_true, decide_eq_true_eq] at hb
      omega
    simp only [pf_init, hi11, if_true]
    simp [hgen]
  refine ⟨by rw [judge_score_eq_spec_score, hscore], ?_⟩
  unfold judge_features
  rw [judge_score_eq_spec_score, hscore]
  decide

/-- Witness for C1 at the concrete invalid silhouette `imgSeedOutline`. -/
theorem C1_amended_witness :
    create_skeleton adTriv imgSeedOutline true = (List.replicate 11 ⟨0, 0⟩, true) ∧
    judge_features (pf_init (fun _ => ⟨0, 0⟩) (fun _ => ⟨0, 0⟩)).1
      (pf_init (fun _ => ⟨0, 0⟩) (fun _ => ⟨0, 0⟩)).2 (List.replicate 11 ⟨0, 0⟩) = "Noise" :=
  ⟨(C1_amended adTriv imgSeedOutline true (by decide)).1,
    ((C1_amended adTriv imgSeedOutline true (by decide)).2 (fun _ => ⟨0, 0⟩)
      (fun _ => ⟨0, 0⟩)).2⟩

/-- C2, counterexample: the flood fill is run exactly when the seed pixel is
NOT an outline pixel — on the all-exterior image the flood runs although the
seed pixel is not outline, refuting the claimed equivalence. -/
theorem C2_counterexample :
    ¬ (runs_flood imgAllBlack = true ↔ imgAllBlack.px 64 32 = C_OUTLINE) := by
  decide

/-- C2, amended: the fitter runs the flood fill exactly when the seed pixel
(row 64, col 32) is NOT an outline pixel; and (for an image containing the
seed whose corner is not already fill-coloured) it rejects the silhouette
exactly when, after any flood, the corner (0,0) has been reached by the
flood or the seed pixel is still not interior (not fill-coloured); on
rejection no landmark is fitted and the flag is raised. -/
theorem C2_amended (m : Mat) (hr : 64 < m.rows) (hc : 32 < m.cols)
    (h00 : m.px 0 0 ≠ C_FILL) :
    (runs_flood m = true ↔ m.px 64 32 ≠ C_OUTLINE) ∧
    (silhouette_ok m = false ↔
      ((runs_flood m = true ∧ ((0 : Int), (0 : Int)) ∈ flood_reach m) ∨
        (after_flood m).px 64 32 ≠ C_FILL)) ∧
    (silhouette_ok m = false →
      ∀ (ad : ArmDetectors) (flag0 : Bool),
        create_skeleton ad m flag0 = (List.replicate 11 ⟨0, 0⟩, true)) := by
  refine ⟨by simp [runs_flood], ?_, fun h ad flag0 => create_skeleton_of_not_ok ad m flag0 h⟩
  by_cases hrf : runs_flood m = true
  · have hseed : ((64 : Int), (32 : Int)) ∈ flood_reach m := seed_mem_flood_reach m hr hc
    have hafter : ∀ r c : Nat, (after_flood m).px r c =
        if ((r : Int), (c : Int)) ∈ flood_reach m then C_FILL else m.px r c := by
      intro r c; rw [after_flood, if_pos hrf]
    have h6432 : (after_flood m).px 64 32 = C_FILL := by
      rw [hafter 64 32, if_pos]
      exact_mod_cast hseed
    by_cases hmem : ((0 : Int), (0 : Int)) ∈ flood_reach m
    · have h001 : (after_flood m).px 0 0 = C_FILL := by
        rw [hafter 0 0, if_pos]
        exact_mod_cast hmem
      have hok : silhouette_ok m = false := by
        unfold silhouette_ok
        rw [h001, h6432]
        decide
      rw [hok]
      exact iff_of_true rfl (Or.inl ⟨hrf, hmem⟩)
    · have h001 : (after_flood m).px 0 0 = m.px 0 0 := by
        rw [hafter 0 0, if_neg]
        simpa using hmem
      have hok : silhouette_ok m = true := by
        unfold silhouette_ok
        rw [h001, h6432, decide_eq_true h00]
        decide
      rw [hok]
      apply iff_of_false (by simp [hok])
      rintro (⟨_, hm⟩ | hne)
      · exact hmem hm
      · exact hne h6432
  · have hout : m.px 64 32 = C_OUTLINE := by
      by_contra hno
      exact hrf (by simpa [runs_flood] using hno)
    have hafter : after_flood m = m := by
      unfold after_flood
      rw [if_neg hrf]
    have hok : silhouette_ok m = false := by
      unfold silhouette_ok
      rw [hafter, hout]
      have hdec : decide (C_OUTLINE ≠ C_OUTLINE) = false := by decide
      rw [hdec, Bool.and_false]
    rw [hok]
    refine iff_of_true rfl (Or.inr ?_)
    rw [hafter, hout]
    decide

/-- Witness for C2 at the concrete all-exterior image. -/
theorem C2_amended_witness :
    runs_flood imgAllBlack = true ↔ imgAllBlack.px 64 32 ≠ C_OUTLINE :=
  (C2_amended imgAllBlack (by decide) (by decide) (by decide)).1

/-- C9: if the torso landmark (index 1) does not lie strictly inside the
silhouette bounds `[0, rows) × [0, cols)`, the fitter sets the failure flag
and runs no later detector: the skeleton layout is 11 nodes of which only
head and torso were written, landmarks 2 through 10 keeping their initial
`(0,0)` values. -/
theorem C9_torso_out_of_bounds_stops_fitter (ad : ArmDetectors) (m : Mat) (flag0 : Bool)
    (h : is_within_bound ((create_skeleton ad m flag0).1.getD 1 ⟨0, 0⟩) 0 0
      (m.rows : Int) (m.cols : Int) = false) :
    (create_skeleton ad m flag0).2 = true ∧
    (create_skeleton ad m flag0).1.length = 11 ∧
    ∀ k, 2 ≤ k → k ≤ 10 → (create_skeleton ad m flag0).1.getD k ⟨0, 0⟩ = ⟨0, 0⟩ := by
  by_cases hok : silhouette_ok m
  · unfold create_skeleton at h ⊢
    rw [if_pos hok] at h ⊢
    dsimp only at h ⊢
    split at h
    · rename_i hg
      exfalso
      rw [Bool.eq_false_iff] at h
      exact h (by simpa using hg)
    · rename_i hg
      rw [if_neg hg]
      refine ⟨rfl, by simp, ?_⟩
      intro k h2 h10
      match k, h2, h10 with
      | 2, _, _ => rfl
      | 3, _, _ => rfl
      | 4, _, _ => rfl
      | 5, _, _ => rfl
      | 6, _, _ => rfl
      | 7, _, _ => rfl
      | 8, _, _ => rfl
      | 9, _, _ => rfl
      | 10, _, _ => rfl
  · have hc := create_skeleton_of_not_ok ad m flag0 (by simpa using hok)
    rw [hc]
    refine ⟨rfl, by simp, ?_⟩
    intro k h2 h10
    match k, h2, h10 with
    | 2, _, _ => rfl
    | 3, _, _ => rfl
    | 4, _, _ => rfl
    | 5, _, _ => rfl
    | 6, _, _ => rfl
    | 7, _, _ => rfl
    | 8, _, _ => rfl
    | 9, _, _ => rfl
    | 10, _, _ => rfl

/-- The 65×33 contour image used as the C9 witness: the seed pixel (64,32)
sits in the bottom-right corner, walled off by two outline pixels, so the
flood colours exactly the seed; the single interior pixel yields a head at
row 69 and a degenerate torso at `(5, -500)`, which fails the bounds
guard. -/
def imgTinyBlob : Mat :=
  { rows := 65, cols := 33,
    px := fun r c => if (r = 63 ∧ c = 32) ∨ (r = 64 ∧ c = 31) then C_OUTLINE else C_BLACK }

set_option maxRecDepth 100000 in
/-- Witness for C9 at a concrete silhouette whose fitted torso lands outside
the image bounds. -/
theorem C9_torso_out_of_bounds_stops_fitter_witness :
    (create_skeleton adTriv imgTinyBlob false).2 = true ∧
    (create_skeleton adTriv imgTinyBlob false).1.length = 11 ∧
    ∀ k, 2 ≤ k → k ≤ 10 →
      (create_skeleton adTriv imgTinyBlob false).1.getD k ⟨0, 0⟩ = ⟨0, 0⟩ :=
  C9_torso_out_of_bounds_stops_fitter adTriv imgTinyBlob false (by decide)

/-- C10: a `PeopleFinder` constructed with `bad_skel_flag` already `true`
discards the skeleton fitted from the first training image — whatever that
image is, so in particular even when the fit succeeds — because `train`
tests the flag before it is ever reset: training on `img :: rest` from a
raised flag equals training on `rest` alone from a lowered flag, the first
skeleton never reaching `train_compare_ranges`. -/
theorem C10_raised_flag_discards_first_training_image (ad : ArmDetectors)
    (min_range max_range : Nat → Point) (img : Mat) (rest : List Mat) :
    train ad min_range max_range true (img :: rest) =
      train ad min_range max_range false rest := by
  unfold train
  dsimp only
  rw [train_loop]
  simp [create_skeleton_flag_true]

/-- The pixel function of an empty interior list: every entry is the
sentinel `(0,0)` (a `vector<Point>(8192)` into which nothing was written). -/
def pixEmpty : Nat → Point := fun _ => ⟨0, 0⟩

/-- C4, counterexample: on an empty pixel list the head detector returns
`(1000 + threshold, 1000) = (1005, 1000)`, not the sentinel `(1000,1000)`
the claim states — and `find_head_feature` has no access to the failure
flag at all, so it cannot raise it. -/
theorem C4_counterexample :
    (find_head_feature pixEmpty 5 0 CAP).1 = ⟨1005, 1000⟩ ∧
    (find_head_feature pixEmpty 5 0 CAP).1 ≠ ⟨1000, 1000⟩ := by
  constructor <;> decide

/-- C4, amended: on an empty (or exhausted) interior pixel list no detector
raises the failure flag: the head detector returns the shifted sentinel
`(1000 + threshold, 1000)` and leaves its output index at the call-site
value; the foot detector returns `(1000, 1000)`; the waist detector returns
`(-threshold, 0)` and passes the failure flag through unchanged (its
exception handler has nothing to catch); neither the head nor the foot
detector even receives the flag. -/
theorem C4_amended (threshold : Int) (idx0 : Nat) (torso_feature waist_feature corner : Point)
    (index_torso index_waist : Nat) (bad_skel_flag : Bool) (f1 f2 f3 f4 f5 : Nat) :
    (find_head_feature pixEmpty threshold idx0 f1).1 = ⟨1000 + threshold, 1000⟩ ∧
    (find_head_feature pixEmpty threshold idx0 f1).2 = idx0 ∧
    find_foot_feature pixEmpty threshold waist_feature corner index_waist f2 f3
      = ⟨1000, 1000⟩ ∧
    (find_waist_feature pixEmpty threshold torso_feature index_torso idx0 bad_skel_flag
      f4 f5).1 = ⟨-threshold, 0⟩ ∧
    (find_waist_feature pixEmpty threshold torso_feature index_torso idx0 bad_skel_flag
      f4 f5).2.2 = bad_skel_flag := by
  refine ⟨?_, ?_, ?_, ?_, rfl⟩
  · cases f1 <;> simp [find_head_feature, head_loop, pixEmpty]
  · cases f1 <;> simp [find_head_feature, head_loop, pixEmpty]
  · cases f2 <;> cases f3 <;>
      simp [find_foot_feature, seek_row, foot_loop, pixEmpty]
  · cases f4 <;> cases f5 <;>
      simp [find_waist_feature, waist_seek, widest_run_loop, pixEmpty, Int.zero_tdiv]

/-! ## Seed-index behaviour of the detectors (C7) -/

theorem seek_row_le (pix : Nat → Point) (bound : Int) :
    ∀ (fuel i : Nat), i ≤ seek_row pix bound fuel i := by
  intro fuel
  induction fuel with
  | zero => intro i; simp [seek_row]
  | succ fuel ih =>
    intro i
    unfold seek_row
    split
    · exact le_trans (Nat.le_succ i) (ih (i + 1))
    · exact le_refl i

theorem waist_seek_le (pix : Nat → Point) (bound : Int) :
    ∀ (fuel i : Nat), i ≤ waist_seek pix bound fuel i := by
  intro fuel
  induction fuel with
  | zero => intro i; simp [waist_seek]
  | succ fuel ih =>
    intro i
    unfold waist_seek
    split
    · split
      · exact le_trans (by omega) (ih (i + 101))
      · exact le_trans (Nat.le_succ i) (ih (i + 1))
    · exact le_refl i

theorem shoulder_seek_le (pix : Nat → Point) (bound : Int) :
    ∀ (fuel i : Nat), i ≤ shoulder_seek pix bound fuel i := by
  intro fuel
  induction fuel with
  | zero => intro i; simp [shoulder_seek]
  | succ fuel ih =>
    intro i
    unfold shoulder_seek
    split
    · exact le_trans (Nat.le_succ i) (ih (i + 1))
    · exact le_refl i

/-- The torso scan writes `*index_torso` only at a row transition, and then
writes a value at or past the loop position: the final value is either the
incoming one or at least the entry position. -/
theorem torso_loop_index (pix : Nat → Point) (lower_bound_x : Int) :
    ∀ (fuel i : Nat) (s : TorsoState),
      (torso_loop pix lower_bound_x fuel i s).index_torso = s.index_torso ∨
        i ≤ (torso_loop pix lower_bound_x fuel i s).index_torso := by
  intro fuel
  induction fuel with
  | zero => intro i s; left; rfl
  | succ fuel ih =>
    intro i s
    unfold torso_loop
    split
    · dsimp only
      split
      · rcases ih (i + 1) _ with h | h
        · left; exact h
        · right; omega
      · split
        · have h := ih (i + 1)
            { current_row := pix (i + 1), current_dist := 0, shortest_dist := s.current_dist,
              best_fit_node := pix (i + 1 - 1), index_torso := i + 1 - 1 }
          rcases h with h | h
          · dsimp only at h
            right; omega
          · right; omega
        · rcases ih (i + 1) _ with h | h
          · left; exact h
          · right; omega
    · left; rfl

/-- The widest-run scan (waist, shoulders) writes its output index only at a
discontinuity, and then a value at or past the loop position. -/
theorem widest_run_loop_index (pix : Nat → Point) (lower_bound_x : Int) :
    ∀ (fuel i : Nat) (s : WideState),
      (widest_run_loop pix lower_bound_x fuel i s).index_out = s.index_out ∨
        i ≤ (widest_run_loop pix lower_bound_x fuel i s).index_out := by
  intro fuel
  induction fuel with
  | zero => intro i s; left; rfl
  | succ fuel ih =>
    intro i s
    unfold widest_run_loop
    split
    · dsimp only
      split
      · rcases ih (i + 1) _ with h | h
        · left; exact h
        · right; omega
      · split
        · have h := ih (i + 1)
            { current_row := pix (i + 1), current_dist := 0, largest_dist := s.current_dist,
              best_fit_node := pix (i + 1 - 1), index_out := i + 1 - 1 }
          rcases h with h | h
          · dsimp only at h
            right; omega
          · right; omega
        · rcases ih (i + 1) _ with h | h
          · left; exact h
          · right; omega
    · left; rfl

/-- C7, counterexample: the torso detector is not monotone in its seed
index: with an empty pixel list and seed index 1, the returned index is the
call-site value 0 of the output parameter, which is smaller than the
seed. -/
theorem C7_counterexample :
    (find_torso_feature pixEmpty 5 ⟨0, 0⟩ 1 0 8 8).2 = 0 ∧
    ¬ 1 ≤ (find_torso_feature pixEmpty 5 ⟨0, 0⟩ 1 0 8 8).2 := by
  constructor <;> decide

/-- C7, amended: each of the torso, waist and shoulder detectors writes its
output index only when a run transition occurs, and any written value is at
or past the received seed index; so the returned index is either the
call-site value of the output parameter (`idx0`, which is 0 in
`create_skeleton` and may be smaller than the seed) or at least the received
seed index. -/
theorem C7_amended :
    (∀ (pix : Nat → Point) (threshold : Int) (head_feature : Point)
        (index_head idx0 fuel1 fuel2 : Nat),
      (find_torso_feature pix threshold head_feature index_head idx0 fuel1 fuel2).2 = idx0 ∨
        index_head ≤ (find_torso_feature pix threshold head_feature index_head idx0
          fuel1 fuel2).2) ∧
    (∀ (pix : Nat → Point) (threshold : Int) (torso_feature : Point)
        (index_torso idx0 : Nat) (bad_skel_flag : Bool) (fuel1 fuel2 : Nat),
      (find_waist_feature pix threshold torso_feature index_torso idx0 bad_skel_flag
          fuel1 fuel2).2.1 = idx0 ∨
        index_torso ≤ (find_waist_feature pix threshold torso_feature index_torso idx0
          bad_skel_flag fuel1 fuel2).2.1) ∧
    (∀ (pix : Nat → Point) (threshold : Int) (torso_feature : Point)
        (index_torso idx0 fuel1 fuel2 : Nat),
      (set_shoulder_positions pix threshold torso_feature index_torso idx0
          fuel1 fuel2).2.2.2 = idx0 ∨
        index_torso ≤ (set_shoulder_positions pix threshold torso_feature index_torso idx0
          fuel1 fuel2).2.2.2) := by
  refine ⟨?_, ?_, ?_⟩
  · intro pix threshold head_feature index_head idx0 fuel1 fuel2
    unfold find_torso_feature
    dsimp only
    rcases torso_loop_index pix (if 48 < head_feature.x then head_feature.x + 1 else 48)
        fuel2 (seek_row pix (head_feature.x + threshold) fuel1 index_head)
        { current_row := pix (seek_row pix (head_feature.x + threshold) fuel1 index_head),
          current_dist := 0, shortest_dist := 1000,
          best_fit_node := pix (seek_row pix (head_feature.x + threshold) fuel1 index_head),
          index_torso := idx0 } with h | h
    · left; exact h
    · right
      exact le_trans (seek_row_le pix (head_feature.x + threshold) fuel1 index_head) h
  · intro pix threshold torso_feature index_torso idx0 bad_skel_flag fuel1 fuel2
    unfold find_waist_feature
    dsimp only
    rcases widest_run_loop_index pix 80 fuel2
        (waist_seek pix ((if 64 < torso_feature.x then torso_feature.x + 1 else 64) + threshold)
          fuel1 index_torso)
        { current_row := pix (waist_seek pix
            ((if 64 < torso_feature.x then torso_feature.x + 1 else 64) + threshold)
            fuel1 index_torso),
          current_dist := 0, largest_dist := 0,
          best_fit_node := pix (waist_seek pix
            ((if 64 < torso_feature.x then torso_feature.x + 1 else 64) + threshold)
            fuel1 index_torso),
          index_out := idx0 } with h | h
    · left; exact h
    · right
      exact le_trans (waist_seek_le pix _ fuel1 index_torso) h
  · intro pix threshold torso_feature index_torso idx0 fuel1 fuel2
    unfold set_shoulder_positions
    dsimp only
    rcases widest_run_loop_index pix (torso_feature.x + threshold) fuel2
        (shoulder_seek pix torso_feature.x fuel1 index_torso)
        { current_row := pix (shoulder_seek pix torso_feature.x fuel1 index_torso),
          current_dist := 0, largest_dist := 0,
          best_fit_node := pix (shoulder_seek pix torso_feature.x fuel1 index_torso),
          index_out := idx0 } with h | h
    · left; exact h
    · right
      exact le_trans (shoulder_seek_le pix torso_feature.x fuel1 index_torso) h

/-! ## The torso detector on row-major interior pixel lists (C3)

The claim concerns `find_torso_feature` on a row-major interior pixel list
whose rows are contiguous runs (the form produced by `highlight_pixels` on a
silhouette whose rows are solid).  A list of `RowRun`s — row index, leftmost
column, run length — with strictly increasing rows is exactly such a list;
`flattenRuns` produces the concrete pixel list. -/

/-- One row of interior pixels: row index, leftmost column, and the number
of contiguous columns (the run length of the claim). -/
structure RowRun where
  row : Int
  left : Int
  len : Nat
deriving DecidableEq, Repr

/-- The pixels of one row run, left to right. -/
def runPixels (g : RowRun) : List Point :=
  (List.range g.len).map (fun (k : Nat) => ⟨g.row, g.left + (k : Int)⟩)

/-- The row-major interior pixel list of a list of row runs. -/
def flattenRuns (gs : List RowRun) : List Point := (gs.map runPixels).flatten

/-- The total pixel function of a pixel list (see the header comment). -/
def pixOf (l : List Point) : Nat → Point := fun n => l.getD n ⟨0, 0⟩

/-- Specification side of C3, from the words of the claim: a row is in the
torso search range when its row index lies between `head.row + threshold`
and the lower bound `max 48 (head.row + 1)`. -/
def run_in_range (threshold : Int) (head_feature : Point) (g : RowRun) : Bool :=
  decide (head_feature.x + threshold ≤ g.row) &&
    decide (g.row < max 48 (head_feature.x + 1))

/-- Specification side of C3: the row with the smallest run length, the
earliest in case of ties. -/
def narrowest_from (b : RowRun) (gs : List RowRun) : RowRun :=
  gs.foldl (fun b g => if g.len < b.len then g else b) b

/-- Specification side of C3, from the words of the claim: select the row
with the smallest run length among the in-range rows and return
`(row + threshold, left_col + run/2)`, the midpoint of the narrowest row
offset one threshold deeper (`none` when no row is in range). -/
def torso_spec (gs : List RowRun) (threshold : Int) (head_feature : Point) : Option Point :=
  match gs.filter (run_in_range threshold head_feature) with
  | [] => none
  | g :: rest =>
    let R := narrowest_from g rest
    some ⟨R.row + threshold, R.left + ((R.len / 2 : Nat) : Int)⟩

/-- List-level version of `seek_row`, consuming the list instead of moving
an index (related to `seek_row` by `seek_row_bridge`). -/
def seek_rowL (bound : Int) : Nat → List Point → List Point
  | 0, l => l
  | fuel + 1, l =>
    if (l.headD ⟨0, 0⟩).x < bound ∧ l.headD ⟨0, 0⟩ ≠ ⟨0, 0⟩ then
      seek_rowL bound fuel l.tail
    else l

/-- List-level version of the torso scan loop, carrying only the fields the
returned node depends on (related to `torso_loop` by `torso_loop_bridge`);
returns the final `(best_fit_node, shortest_dist)`. -/
def torso_loopL (lower_bound_x : Int) :
    Nat → List Point → Point → Int → Int → Point → Point × Int
  | 0, _, _, _, shortest, best => (best, shortest)
  | fuel + 1, l, current_row, dist, shortest, best =>
    let cur := l.headD ⟨0, 0⟩
    if cur ≠ ⟨0, 0⟩ ∧ cur.x < lower_bound_x then
      let nxt := l.tail.headD ⟨0, 0⟩
      if nxt.x = current_row.x then
        torso_loopL lower_bound_x fuel l.tail current_row (dist + 1) shortest best
      else if dist < shortest then
        torso_loopL lower_bound_x fuel l.tail nxt 0 dist cur
      else
        torso_loopL lower_bound_x fuel l.tail nxt 0 shortest best
    else (best, shortest)

/-- The group-level effect of the torso scan: per in-range row, flush the
count `len - 1` against the strictly smallest count seen. -/
def torso_fold : List RowRun → Int → Point → Point × Int
  | [], shortest, best => (best, shortest)
  | g :: gs, shortest, best =>
    if (g.len : Int) - 1 < shortest then
      torso_fold gs ((g.len : Int) - 1) ⟨g.row, g.left + (g.len : Int) - 1⟩
    else
      torso_fold gs shortest best

theorem getD_eq_headD_drop (l : List Point) (i : Nat) :
    l.getD i ⟨0, 0⟩ = (l.drop i).headD ⟨0, 0⟩ := by
  induction l generalizing i with
  | nil => cases i <;> rfl
  | cons a l ih =>
    cases i with
    | zero => rfl
    | succ i => simp only [List.getD_cons_succ, List.drop_succ_cons]; exact ih i

theorem runPixels_succ (row left : Int) (n : Nat) :
    runPixels ⟨row, left, n + 1⟩ = ⟨row, left⟩ :: runPixels ⟨row, left + 1, n⟩ := by
  unfold runPixels
  rw [List.range_succ_eq_map, List.map_cons, List.map_map]
  simp only [Nat.cast_zero, add_zero]
  congr 1
  apply List.map_congr_left
  intro k _
  simp only [Function.comp_apply]
  congr 1
  push_cast
  ring

theorem flattenRuns_cons (g : RowRun) (gs : List RowRun) :
    flattenRuns (g :: gs) = runPixels g ++ flattenRuns gs := by
  simp [flattenRuns]

theorem length_runPixels (g : RowRun) : (runPixels g).length = g.len := by
  simp [runPixels]

theorem headD_flattenRuns_cons (g : RowRun) (gs : List RowRun) (h : 1 ≤ g.len) :
    (flattenRuns (g :: gs)).headD ⟨0, 0⟩ = ⟨g.row, g.left⟩ := by
  obtain ⟨m, hm⟩ : ∃ m, g.len = m + 1 := ⟨g.len - 1, by omega⟩
  have hg : g = ⟨g.row, g.left, m + 1⟩ := by
    cases g
    simp_all
  rw [flattenRuns_cons, hg, runPixels_succ]
  rfl

theorem tail_drop_eq (l : List Point) (i : Nat) : (l.drop i).tail = l.drop (i + 1) := by
  rw [List.tail_drop]

theorem seek_row_bridge (data : List Point) (bound : Int) :
    ∀ (fuel i : Nat),
      data.drop (seek_row (pixOf data) bound fuel i) = seek_rowL bound fuel (data.drop i) := by
  intro fuel
  induction fuel with
  | zero => intro i; rfl
  | succ fuel ih =>
    intro i
    unfold seek_row seek_rowL
    rw [show pixOf data i = (data.drop i).headD ⟨0, 0⟩ from getD_eq_headD_drop data i]
    split
    · rw [ih (i + 1), tail_drop_eq]
    · rfl

theorem torso_loop_bridge (data : List Point) (lower_bound_x : Int) :
    ∀ (fuel i : Nat) (s : TorsoState),
      ((torso_loop (pixOf data) lower_bound_x fuel i s).best_fit_node,
        (torso_loop (pixOf data) lower_bound_x fuel i s).shortest_dist) =
      torso_loopL lower_bound_x fuel (data.drop i) s.current_row s.current_dist
        s.shortest_dist s.best_fit_node := by
  intro fuel
  induction fuel with
  | zero => intro i s; rfl
  | succ fuel ih =>
    intro i s
    unfold torso_loop torso_loopL
    rw [show pixOf data i = (data.drop i).headD ⟨0, 0⟩ from getD_eq_headD_drop data i]
    dsimp only
    by_cases hc : (data.drop i).headD ⟨0, 0⟩ ≠ ⟨0, 0⟩ ∧
        ((data.drop i).headD ⟨0, 0⟩).x < lower_bound_x
    · simp only [if_pos hc]
      rw [show pixOf data (i + 1) = (data.drop i).tail.headD ⟨0, 0⟩ from by
        rw [tail_drop_eq]; exact getD_eq_headD_drop data (i + 1)]
      by_cases h2 : ((data.drop i).tail.headD ⟨0, 0⟩).x = s.current_row.x
      · simp only [if_pos h2]
        rw [ih (i + 1), tail_drop_eq]
      · simp only [if_neg h2]
        by_cases h3 : s.current_dist < s.shortest_dist
        · simp only [if_pos h3]
          rw [ih (i + 1), tail_drop_eq]
          rw [show pixOf data (i + 1 - 1) = (data.drop i).headD ⟨0, 0⟩ from
            getD_eq_headD_drop data i]
        · simp only [if_neg h3]
          rw [ih (i + 1), tail_drop_eq]
    · simp only [if_neg hc]
theorem point_ne_zero_of_row (p : Point) (h : 1 ≤ p.x) : p ≠ ⟨0, 0⟩ := by
  intro he
  rw [he] at h
  simp at h

/-- One consuming step of `seek_rowL` on a non-sentinel pixel below the
bound. -/
theorem seek_rowL_cons (bound : Int) (p : Point) (l : List Point) (fuel : Nat)
    (h : p.x < bound ∧ p ≠ ⟨0, 0⟩) :
    seek_rowL bound (fuel + 1) (p :: l) = seek_rowL bound fuel l := by
  simp only [seek_rowL, List.headD_cons, List.tail_cons]
  rw [if_pos h]

/-- `seek_rowL` consumes a whole run whose row is below the bound. -/
theorem seek_rowL_run (bound row : Int) (hrow1 : 1 ≤ row) (hlt : row < bound) :
    ∀ (n : Nat) (left : Int) (rest : List Point) (fuel : Nat),
      seek_rowL bound (n + fuel) (runPixels ⟨row, left, n⟩ ++ rest) =
        seek_rowL bound fuel rest := by
  intro n
  induction n with
  | zero =>
    intro left rest fuel
    simp [runPixels]
  | succ n ih =>
    intro left rest fuel
    rw [runPixels_succ]
    have hstep : n + 1 + fuel = (n + fuel) + 1 := by omega
    rw [hstep, List.cons_append,
      seek_rowL_cons bound _ _ _ ⟨hlt, point_ne_zero_of_row _ hrow1⟩]
    exact ih (left + 1) rest fuel

/-- `seek_rowL` stops at the first pixel of a run whose row is at or past
the bound. -/
theorem seek_rowL_stop (bound : Int) (l : List Point)
    (h : ¬ ((l.headD ⟨0, 0⟩).x < bound ∧ l.headD ⟨0, 0⟩ ≠ ⟨0, 0⟩)) :
    ∀ fuel, seek_rowL bound fuel l = l := by
  intro fuel
  cases fuel with
  | zero => rfl
  | succ fuel => unfold seek_rowL; rw [if_neg h]

/-- The group-level effect of the torso skip phase: drop exactly the runs
whose rows are below the bound. -/
theorem seek_rowL_runs (bound : Int) :
    ∀ (gs : List RowRun) (fuel : Nat),
      (∀ g ∈ gs, 1 ≤ g.len ∧ 1 ≤ g.row) →
      (flattenRuns gs).length ≤ fuel →
      seek_rowL bound fuel (flattenRuns gs) =
        flattenRuns (gs.dropWhile (fun g => decide (g.row < bound))) := by
  intro gs
  induction gs with
  | nil =>
    intro fuel _ _
    apply seek_rowL_stop
    simp [flattenRuns]
  | cons g gs ih =>
    intro fuel hok hfuel
    have hg := hok g (by simp)
    rw [flattenRuns_cons] at hfuel ⊢
    rw [List.length_append, length_runPixels] at hfuel
    by_cases hr : g.row < bound
    · have hsplit : fuel = g.len + (fuel - g.len) := by omega
      rw [List.dropWhile_cons_of_pos (by simpa using hr)]
      have hgeq : g = ⟨g.row, g.left, g.len⟩ := by cases g; rfl
      rw [hsplit, hgeq, seek_rowL_run bound g.row hg.2 hr g.len g.left _ _]
      exact ih (fuel - g.len) (fun g' hg' => hok g' (by simp [hg'])) (by omega)
    · rw [List.dropWhile_cons_of_neg (by simpa using hr)]
      rw [← flattenRuns_cons]
      apply seek_rowL_stop
      rw [headD_flattenRuns_cons g gs hg.1]
      intro hcontra
      exact hr hcontra.1

/-- The flush a single in-range run of length `n` contributes when the scan
leaves it: its count is `dist + n - 1` (the pixels after the first, on top
of the count `dist` carried into the run), kept when strictly smaller than
the best so far, together with the last pixel of the run. -/
def torso_flush (row left dist : Int) (n : Nat) (shortest : Int) (best : Point) :
    Int × Point :=
  if dist + (n : Int) - 1 < shortest then (dist + (n : Int) - 1, ⟨row, left + (n : Int) - 1⟩)
  else (shortest, best)

theorem torso_flush_shift (row left dist : Int) (n : Nat) (shortest : Int) (best : Point) :
    torso_flush row (left + 1) (dist + 1) n shortest best =
      torso_flush row left dist (n + 1) shortest best := by
  unfold torso_flush
  have e1 : dist + 1 + (n : Int) - 1 = dist + ((n + 1 : Nat) : Int) - 1 := by push_cast; ring
  have e2 : left + 1 + (n : Int) - 1 = left + ((n + 1 : Nat) : Int) - 1 := by push_cast; ring
  rw [e1, e2]

theorem headD_runPixels_append (row left : Int) (n : Nat) (h : 1 ≤ n) (rest : List Point) :
    ((runPixels ⟨row, left, n⟩ ++ rest).headD ⟨0, 0⟩) = ⟨row, left⟩ := by
  obtain ⟨m, hm⟩ : ∃ m, n = m + 1 := ⟨n - 1, by omega⟩
  rw [hm, runPixels_succ, List.cons_append, List.headD_cons]

/-- The torso scan consumes one whole in-range run, flushing its count when
the scan moves past its last pixel. -/
theorem torso_loopL_run (lower row : Int) (hrow1 : 1 ≤ row) (hlow : row < lower) :
    ∀ (n : Nat), 1 ≤ n → ∀ (left : Int) (rest : List Point),
      (rest.headD ⟨0, 0⟩).x ≠ row →
      ∀ (fuel : Nat) (cr : Point), cr.x = row → ∀ (dist shortest : Int) (best : Point),
      torso_loopL lower (n + fuel) (runPixels ⟨row, left, n⟩ ++ rest) cr dist shortest best =
        torso_loopL lower fuel rest (rest.headD ⟨0, 0⟩) 0
          (torso_flush row left dist n shortest best).1
          (torso_flush row left dist n shortest best).2 := by
  intro n
  induction n with
  | zero => omega
  | succ m ih =>
    intro _ left rest hnext fuel cr hcr dist shortest best
    cases m with
    | zero =>
      have e1 : torso_flush row left dist 1 shortest best =
          (if dist < shortest then dist else shortest,
            if dist < shortest then ⟨row, left⟩ else best) := by
        unfold torso_flush
        have ed : dist + ((1 : Nat) : Int) - 1 = dist := by push_cast; ring
        have el : left + ((1 : Nat) : Int) - 1 = left := by push_cast; ring
        rw [ed, el]
        by_cases hd : dist < shortest
        · rw [if_pos hd, if_pos hd, if_pos hd]
        · rw [if_neg hd, if_neg hd, if_neg hd]
      rw [e1]
      have hsucc : 1 + fuel = fuel + 1 := by omega
      rw [hsucc]
      have hrp : runPixels ⟨row, left, 1⟩ = [⟨row, left⟩] := by
        rw [show (1 : Nat) = 0 + 1 from rfl, runPixels_succ]
        simp [runPixels]
      rw [hrp]
      simp only [torso_loopL, List.cons_append, List.headD_cons, List.tail_cons,
        List.nil_append]
      rw [if_pos ⟨point_ne_zero_of_row _ hrow1, hlow⟩]
      rw [if_neg (by rw [hcr]; exact hnext)]
      by_cases hd : dist < shortest
      · rw [if_pos hd, if_pos hd, if_pos hd]
      · rw [if_neg hd, if_neg hd, if_neg hd]
    | succ k =>
      have hsucc : k + 1 + 1 + fuel = (k + 1 + fuel) + 1 := by omega
      rw [hsucc, runPixels_succ, List.cons_append]
      simp only [torso_loopL, List.headD_cons, List.tail_cons]
      rw [if_pos ⟨point_ne_zero_of_row _ hrow1, hlow⟩]
      rw [headD_runPixels_append row (left + 1) (k + 1) (by omega) rest]
      rw [if_pos (by rw [hcr])]
      rw [ih (by omega) (left + 1) rest hnext fuel cr hcr (dist + 1) shortest best]
      rw [torso_flush_shift]

theorem torso_flush_zero (row left : Int) (n : Nat) (shortest : Int) (best : Point) :
    torso_flush row left 0 n shortest best =
      (if (n : Int) - 1 < shortest then (n : Int) - 1 else shortest,
        if (n : Int) - 1 < shortest then ⟨row, left + (n : Int) - 1⟩ else best) := by
  unfold torso_flush
  have e : (0 : Int) + (n : Int) - 1 = (n : Int) - 1 := by ring
  rw [e]
  by_cases h : (n : Int) - 1 < shortest
  · rw [if_pos h, if_pos h, if_pos h]
  · rw [if_neg h, if_neg h, if_neg h]

theorem torso_loopL_nil (lower : Int) (fuel : Nat) (cr : Point) (d s : Int) (b : Point) :
    torso_loopL lower fuel [] cr d s b = (b, s) := by
  cases fuel with
  | zero => rfl
  | succ fuel =>
    simp only [torso_loopL, List.headD_nil]
    rw [if_neg]
    simp

theorem torso_loopL_stop (lower : Int) (g : RowRun) (gs : List RowRun) (h1 : 1 ≤ g.len)
    (hge : lower ≤ g.row) (fuel : Nat) (cr : Point) (d s : Int) (b : Point) :
    torso_loopL lower fuel (flattenRuns (g :: gs)) cr d s b = (b, s) := by
  cases fuel with
  | zero => rfl
  | succ fuel =>
    simp only [torso_loopL]
    rw [headD_flattenRuns_cons g gs h1]
    rw [if_neg (fun hc => absurd hc.2 (not_lt.mpr hge))]

/-- The group-level effect of the torso scan from a run boundary: fold the
per-run flush over the runs whose row is below the lower bound. -/
theorem torso_loopL_groups (lower : Int) :
    ∀ (gs : List RowRun) (g : RowRun) (fuel : Nat) (cr : Point) (shortest : Int) (best : Point),
      (∀ g' ∈ g :: gs, 1 ≤ g'.len ∧ 1 ≤ g'.row) →
      List.Chain' (fun a b => a.row ≠ b.row) (g :: gs) →
      (flattenRuns (g :: gs)).length + 1 ≤ fuel →
      cr.x = g.row →
      torso_loopL lower fuel (flattenRuns (g :: gs)) cr 0 shortest best =
        torso_fold ((g :: gs).takeWhile (fun g' => decide (g'.row < lower))) shortest best := by
  intro gs
  induction gs with
  | nil =>
    intro g fuel cr shortest best hok _ hfuel hcr
    have hg := hok g (by simp)
    by_cases hr : g.row < lower
    · rw [List.takeWhile_cons_of_pos (by simpa using hr)]
      simp only [List.takeWhile_nil]
      rw [flattenRuns_cons] at hfuel ⊢
      rw [List.length_append, length_runPixels] at hfuel
      have hgeq : g = ⟨g.row, g.left, g.len⟩ := by cases g; rfl
      have hsplit : fuel = g.len + (fuel - g.len) := by
        simp [flattenRuns] at hfuel
        omega
      rw [show flattenRuns [] = [] from rfl]
      rw [hsplit, hgeq]
      rw [torso_loopL_run lower g.row hg.2 hr g.len hg.1 g.left []
        (by rw [List.headD_nil]; exact fun hc => by simp at hc; omega)
        (fuel - g.len) cr hcr 0 shortest best]
      rw [torso_loopL_nil, torso_flush_zero]
      simp only [torso_fold]
      by_cases hlt : (g.len : Int) - 1 < shortest
      · simp only [if_pos hlt]
        try rfl
      · simp only [if_neg hlt]
        try rfl
    · rw [List.takeWhile_cons_of_neg (by simpa using hr)]
      rw [torso_loopL_stop lower g [] hg.1 (by omega) fuel cr 0 shortest best]
      rfl
  | cons g2 gs ih =>
    intro g fuel cr shortest best hok hchain hfuel hcr
    have hg := hok g (by simp)
    have hg2 := hok g2 (by simp)
    by_cases hr : g.row < lower
    · rw [List.takeWhile_cons_of_pos (by simpa using hr)]
      rw [flattenRuns_cons] at hfuel ⊢
      rw [List.length_append, length_runPixels] at hfuel
      have hgeq : g = ⟨g.row, g.left, g.len⟩ := by cases g; rfl
      have hsplit : fuel = g.len + (fuel - g.len) := by omega
      have hne : g.row ≠ g2.row := (List.chain'_cons.mp hchain).1
      rw [hsplit, hgeq]
      rw [torso_loopL_run lower g.row hg.2 hr g.len hg.1 g.left (flattenRuns (g2 :: gs))
        (by rw [headD_flattenRuns_cons g2 gs hg2.1]; exact fun hc => hne hc.symm)
        (fuel - g.len) cr hcr 0 shortest best]
      rw [headD_flattenRuns_cons g2 gs hg2.1]
      rw [ih g2 (fuel - g.len) ⟨g2.row, g2.left⟩
        (torso_flush g.row g.left 0 g.len shortest best).1
        (torso_flush g.row g.left 0 g.len shortest best).2
        (fun g' hg' => hok g' (by simp at hg' ⊢; tauto))
        (List.chain'_cons.mp hchain).2
        (by omega) rfl]
      rw [torso_flush_zero]
      simp only [torso_fold]
      by_cases hlt : (g.len : Int) - 1 < shortest
      · simp only [if_pos hlt]
        try rfl
      · simp only [if_neg hlt]
        try rfl
    · rw [List.takeWhile_cons_of_neg (by simpa using hr)]
      rw [torso_loopL_stop lower g (g2 :: gs) hg.1 (by omega) fuel cr 0 shortest best]
      rfl

/-- After its first flush, the torso fold tracks exactly the earliest
narrowest run. -/
theorem torso_fold_narrowest :
    ∀ (gs : List RowRun) (b : RowRun),
      torso_fold gs ((b.len : Int) - 1) ⟨b.row, b.left + (b.len : Int) - 1⟩ =
        (⟨(narrowest_from b gs).row,
            (narrowest_from b gs).left + ((narrowest_from b gs).len : Int) - 1⟩,
          ((narrowest_from b gs).len : Int) - 1) := by
  intro gs
  induction gs with
  | nil => intro b; rfl
  | cons g gs ih =>
    intro b
    simp only [torso_fold, narrowest_from, List.foldl_cons]
    by_cases hlt : g.len < b.len
    · rw [if_pos (by omega), if_pos hlt]
      exact ih g
    · rw [if_neg (by omega), if_neg hlt]
      exact ih b

/-- The first flush: from the initial `shortest_dist = 1000`, a run of
length at most 1000 always flushes. -/
theorem torso_fold_first (g : RowRun) (gs : List RowRun) (best : Point)
    (hlen : g.len ≤ 1000) :
    torso_fold (g :: gs) 1000 best =
      torso_fold gs ((g.len : Int) - 1) ⟨g.row, g.left + (g.len : Int) - 1⟩ := by
  simp only [torso_fold]
  rw [if_pos (by omega)]

/-- On a strictly sorted run list, dropping the prefix below a
downward-closed predicate is filtering by its negation. -/
theorem dropWhile_eq_filter_of_sorted (p : RowRun → Bool)
    (hmono : ∀ a b : RowRun, a.row < b.row → p b = true → p a = true) :
    ∀ gs : List RowRun, List.Pairwise (fun a b => a.row < b.row) gs →
      gs.dropWhile p = gs.filter (fun g => ! p g) := by
  intro gs
  induction gs with
  | nil => intro _; rfl
  | cons g gs ih =>
    intro hsort
    have hpw := List.pairwise_cons.mp hsort
    by_cases hp : p g = true
    · rw [List.dropWhile_cons_of_pos hp, List.filter_cons_of_neg (by simp [hp]), ih hpw.2]
    · rw [List.dropWhile_cons_of_neg (by simp [hp]), List.filter_cons_of_pos (by simp [hp])]
      congr 1
      refine (List.filter_eq_self.mpr ?_).symm
      intro a ha
      simp only [Bool.not_eq_true']
      by_contra hpa
      exact hp (hmono g a (hpw.1 a ha) (by simpa using hpa))

/-- On a strictly sorted run list, taking the prefix satisfying a
downward-closed predicate is filtering by it. -/
theorem takeWhile_eq_filter_of_sorted (p : RowRun → Bool)
    (hmono : ∀ a b : RowRun, a.row < b.row → p b = true → p a = true) :
    ∀ gs : List RowRun, List.Pairwise (fun a b => a.row < b.row) gs →
      gs.takeWhile p = gs.filter p := by
  intro gs
  induction gs with
  | nil => intro _; rfl
  | cons g gs ih =>
    intro hsort
    have hpw := List.pairwise_cons.mp hsort
    by_cases hp : p g = true
    · rw [List.takeWhile_cons_of_pos hp, List.filter_cons_of_pos hp, ih hpw.2]
    · rw [List.takeWhile_cons_of_neg (by simp [hp]), List.filter_cons_of_neg (by simp [hp])]
      rw [List.filter_eq_nil_iff.mpr]
      intro a ha
      by_contra hpa
      exact hp (hmono g a (hpw.1 a ha) (by simpa using hpa))

/-- The midpoint arithmetic of the torso node: taking the last column of a
run of length `n` and moving back `(n-1)/2` columns (C++ truncating
division) is the same as taking the first column and moving forward `n/2`
columns. -/
theorem torso_mid_eq (left : Int) (n : Nat) (h : 1 ≤ n) :
    left + (n : Int) - 1 - Int.tdiv ((n : Int) - 1) 2 = left + ((n / 2 : Nat) : Int) := by
  have e1 : (n : Int) - 1 = ((n - 1 : Nat) : Int) := by push_cast [h]; ring
  have e2 : ((n - 1 : Nat) : Int).tdiv 2 = (((n - 1) / 2 : Nat) : Int) := by
    rw [show (2 : Int) = ((2 : Nat) : Int) from by norm_cast]
    exact (Int.ofNat_tdiv _ _).symm
  rw [e1, e2]
  omega

theorem narrowest_from_mem : ∀ (gs : List RowRun) (b : RowRun),
    narrowest_from b gs ∈ b :: gs := by
  intro gs
  induction gs with
  | nil => intro b; simp [narrowest_from]
  | cons g gs ih =>
    intro b
    simp only [narrowest_from, List.foldl_cons]
    by_cases h : g.len < b.len
    · rw [if_pos h]
      have := ih g
      simp only [List.mem_cons] at this ⊢
      tauto
    · rw [if_neg h]
      have := ih b
      simp only [List.mem_cons] at this ⊢
      tauto

theorem flattenRuns_append (l1 l2 : List RowRun) :
    flattenRuns (l1 ++ l2) = flattenRuns l1 ++ flattenRuns l2 := by
  simp [flattenRuns]

/-- The search-range membership test the code performs, as a Boolean on
runs: at or past the first scanned row and before the lower bound. -/
theorem range_filter_eq (threshold : Int) (head_feature : Point) (ht : 1 ≤ threshold)
    (g : RowRun) :
    (!(decide (g.row < head_feature.x + threshold)) &&
      decide (g.row < if 48 < head_feature.x then head_feature.x + 1 else 48)) =
    run_in_range threshold head_feature g := by
  rw [Bool.eq_iff_iff]
  simp only [run_in_range, Bool.and_eq_true, Bool.not_eq_true', decide_eq_false_iff_not,
    decide_eq_true_eq, not_lt]
  rcases max_cases (48 : Int) (head_feature.x + 1) with ⟨hm, hle⟩ | ⟨hm, hlt2⟩ <;>
    rw [hm] <;> split_ifs with hx <;>
    (constructor <;> rintro ⟨a, b⟩ <;> exact ⟨a, by omega⟩)

/-- C3: on every non-empty row-major interior pixel list whose rows are
contiguous runs (strictly increasing rows, each of length 1..1000, rows at
least 1 so no pixel collides with the `(0,0)` sentinel), with at least one
run in the search range and enough fuel for one pass, the torso detector
selects the in-range row with the smallest run length (the earliest on
ties) and returns `(row + threshold, left_col + run/2)`, the midpoint of
the narrowest row offset one threshold deeper.  The seed is `index_head =
0`, the value the head detector produces on every row-major list. -/
theorem C3_find_torso_feature_narrowest_row (gs : List RowRun) (threshold : Int)
    (head_feature : Point) (idx0 fuel1 fuel2 : Nat)
    (hsort : List.Pairwise (fun a b => a.row < b.row) gs)
    (hok : ∀ g ∈ gs, 1 ≤ g.len ∧ g.len ≤ 1000 ∧ 1 ≤ g.row)
    (ht : 1 ≤ threshold)
    (hne : gs.filter (run_in_range threshold head_feature) ≠ [])
    (hf1 : (flattenRuns gs).length ≤ fuel1)
    (hf2 : (flattenRuns gs).length + 1 ≤ fuel2) :
    some (find_torso_feature (pixOf (flattenRuns gs)) threshold head_feature 0 idx0
      fuel1 fuel2).1 = torso_spec gs threshold head_feature := by
  have hp' : ∀ g ∈ gs, 1 ≤ g.len ∧ 1 ≤ g.row := fun g hg =>
    ⟨(hok g hg).1, (hok g hg).2.2⟩
  -- the skip phase reaches the first run at or past head.x + threshold
  have hdrop : (flattenRuns gs).drop
      (seek_row (pixOf (flattenRuns gs)) (head_feature.x + threshold) fuel1 0) =
      flattenRuns (gs.dropWhile (fun g => decide (g.row < head_feature.x + threshold))) := by
    rw [seek_row_bridge (flattenRuns gs) (head_feature.x + threshold) fuel1 0,
      List.drop_zero]
    exact seek_rowL_runs (head_feature.x + threshold) gs fuel1 hp' hf1
  have hgs2filter : gs.dropWhile (fun g => decide (g.row < head_feature.x + threshold)) =
      gs.filter (fun g => ! decide (g.row < head_feature.x + threshold)) :=
    dropWhile_eq_filter_of_sorted _
      (fun a b hab hb => by
        simp only [decide_eq_true_eq] at hb ⊢
        omega) gs hsort
  -- the selected runs are exactly the in-range runs of the claim
  have hsel : (gs.dropWhile (fun g => decide (g.row < head_feature.x + threshold))).takeWhile
      (fun g => decide (g.row <
        if 48 < head_feature.x then head_feature.x + 1 else 48)) =
      gs.filter (run_in_range threshold head_feature) := by
    rw [hgs2filter]
    rw [takeWhile_eq_filter_of_sorted _
      (fun a b hab hb => by
        simp only [decide_eq_true_eq] at hb ⊢
        omega)
      _ (hsort.filter _)]
    rw [List.filter_filter]
    exact List.filter_congr (fun g _ => by
      rw [Bool.and_comm]
      exact range_filter_eq threshold head_feature ht g)
  -- the selected list is non-empty
  obtain ⟨s1, srest, hcons⟩ : ∃ s1 srest,
      gs.filter (run_in_range threshold head_feature) = s1 :: srest := by
    cases hc : gs.filter (run_in_range threshold head_feature) with
    | nil => exact absurd hc hne
    | cons a l => exact ⟨a, l, rfl⟩
  -- so the suffix after the skip is also non-empty
  obtain ⟨g2, rest2, hgs2cons⟩ : ∃ g2 rest2,
      gs.dropWhile (fun g => decide (g.row < head_feature.x + threshold)) =
        g2 :: rest2 := by
    cases hc : gs.dropWhile (fun g => decide (g.row < head_feature.x + threshold)) with
    | nil =>
      exfalso
      apply hne
      rw [← hsel, hc, List.takeWhile_nil]
    | cons a l => exact ⟨a, l, rfl⟩
  have hg2mem : g2 ∈ gs := by
    have : g2 ∈ gs.filter (fun g => ! decide (g.row < head_feature.x + threshold)) := by
      rw [← hgs2filter, hgs2cons]
      simp
    exact (List.mem_filter.mp this).1
  have hg2 := hp' g2 hg2mem
  -- the pixel at the skip position is the first pixel of that run
  have hpix : pixOf (flattenRuns gs)
      (seek_row (pixOf (flattenRuns gs)) (head_feature.x + threshold) fuel1 0) =
      ⟨g2.row, g2.left⟩ := by
    rw [show pixOf (flattenRuns gs)
        (seek_row (pixOf (flattenRuns gs)) (head_feature.x + threshold) fuel1 0) =
        ((flattenRuns gs).drop
          (seek_row (pixOf (flattenRuns gs)) (head_feature.x + threshold) fuel1 0)).headD
          ⟨0, 0⟩ from getD_eq_headD_drop _ _]
    rw [hdrop, hgs2cons]
    exact headD_flattenRuns_cons g2 rest2 hg2.1
  -- fuel for the scan phase
  have hlen2 : (flattenRuns (g2 :: rest2)).length + 1 ≤ fuel2 := by
    have hsplitlen : flattenRuns gs =
        flattenRuns (gs.takeWhile (fun g => decide (g.row < head_feature.x + threshold))) ++
          flattenRuns (g2 :: rest2) := by
      rw [← hgs2cons, ← flattenRuns_append, List.takeWhile_append_dropWhile]
    have : (flattenRuns (g2 :: rest2)).length ≤ (flattenRuns gs).length := by
      rw [hsplitlen, List.length_append]
      omega
    omega
  -- the scan phase folds the flush over the in-range runs
  have hsort2 : List.Pairwise (fun a b : RowRun => a.row < b.row) (g2 :: rest2) := by
    rw [← hgs2cons, hgs2filter]
    exact hsort.filter _
  have hok2 : ∀ g' ∈ g2 :: rest2, 1 ≤ g'.len ∧ 1 ≤ g'.row := by
    intro g' hg'
    apply hp'
    have : g' ∈ gs.filter (fun g => ! decide (g.row < head_feature.x + threshold)) := by
      rw [← hgs2filter, hgs2cons]
      exact hg'
    exact (List.mem_filter.mp this).1
  have hs1mem : s1 ∈ gs := by
    have : s1 ∈ gs.filter (run_in_range threshold head_feature) := by
      rw [hcons]; simp
    exact (List.mem_filter.mp this).1
  have hcalc : torso_loopL (if 48 < head_feature.x then head_feature.x + 1 else 48) fuel2
      ((flattenRuns gs).drop
        (seek_row (pixOf (flattenRuns gs)) (head_feature.x + threshold) fuel1 0))
      ⟨g2.row, g2.left⟩ 0 1000 ⟨g2.row, g2.left⟩ =
      (⟨(narrowest_from s1 srest).row,
          (narrowest_from s1 srest).left + ((narrowest_from s1 srest).len : Int) - 1⟩,
        ((narrowest_from s1 srest).len : Int) - 1) := by
    rw [hdrop, hgs2cons]
    rw [torso_loopL_groups _ rest2 g2 fuel2 ⟨g2.row, g2.left⟩ 1000 ⟨g2.row, g2.left⟩ hok2
      (hsort2.imp (fun hab => by omega)).chain' hlen2 rfl]
    rw [show (g2 :: rest2).takeWhile
        (fun g' => decide (g'.row < if 48 < head_feature.x then head_feature.x + 1 else 48)) =
        s1 :: srest from by rw [← hgs2cons, hsel, hcons]]
    rw [torso_fold_first s1 srest _ (hok s1 hs1mem).2.1]
    exact torso_fold_narrowest srest s1
  -- assemble the returned node
  have hb := torso_loop_bridge (flattenRuns gs)
    (if 48 < head_feature.x then head_feature.x + 1 else 48) fuel2
    (seek_row (pixOf (flattenRuns gs)) (head_feature.x + threshold) fuel1 0)
    { current_row := ⟨g2.row, g2.left⟩, current_dist := 0, shortest_dist := 1000,
      best_fit_node := ⟨g2.row, g2.left⟩, index_torso := idx0 }
  rw [hcalc] at hb
  have hRmem : narrowest_from s1 srest ∈ gs := by
    have hm := narrowest_from_mem srest s1
    rw [← hcons] at hm
    exact (List.mem_filter.mp hm).1
  have hR := hok _ hRmem
  unfold find_torso_feature
  dsimp only
  rw [hpix]
  rw [show ((torso_loop (pixOf (flattenRuns gs))
      (if 48 < head_feature.x then head_feature.x + 1 else 48) fuel2
      (seek_row (pixOf (flattenRuns gs)) (head_feature.x + threshold) fuel1 0)
      { current_row := ⟨g2.row, g2.left⟩, current_dist := 0, shortest_dist := 1000,
        best_fit_node := ⟨g2.row, g2.left⟩, index_torso := idx0 }).best_fit_node) =
    (⟨(narrowest_from s1 srest).row,
      (narrowest_from s1 srest).left + ((narrowest_from s1 srest).len : Int) - 1⟩ : Point)
    from congrArg Prod.fst hb]
  rw [show ((torso_loop (pixOf (flattenRuns gs))
      (if 48 < head_feature.x then head_feature.x + 1 else 48) fuel2
      (seek_row (pixOf (flattenRuns gs)) (head_feature.x + threshold) fuel1 0)
      { current_row := ⟨g2.row, g2.left⟩, current_dist := 0, shortest_dist := 1000,
        best_fit_node := ⟨g2.row, g2.left⟩, index_torso := idx0 }).shortest_dist) =
    ((narrowest_from s1 srest).len : Int) - 1 from congrArg Prod.snd hb]
  unfold torso_spec
  rw [hcons]
  dsimp only
  congr 2
  exact torso_mid_eq (narrowest_from s1 srest).left (narrowest_from s1 srest).len hR.1

/-- Witness for C3 at a concrete two-row silhouette region: rows 10 (run
4..6) and 11 (run 2..3); the narrowest in-range row is row 11, so the torso
lands at `(16, 3)`. -/
theorem C3_find_torso_feature_narrowest_row_witness :
    some (find_torso_feature (pixOf (flattenRuns [⟨10, 4, 3⟩, ⟨11, 2, 2⟩])) 5 ⟨0, 0⟩ 0 0
      20 20).1 = torso_spec [⟨10, 4, 3⟩, ⟨11, 2, 2⟩] 5 ⟨0, 0⟩ :=
  C3_find_torso_feature_narrowest_row [⟨10, 4, 3⟩, ⟨11, 2, 2⟩] 5 ⟨0, 0⟩ 0 20 20
    (by decide) (by decide) (by decide) (by decide) (by decide) (by decide)
